import Mathlib

/-!
Verification of the local-operator tetrahedral mesh editing engine
(`src/batm/tetra_utils.cpp` and `src/batm/AdaMesh_smooth.cpp`).

The C++ code is shallowly embedded:

* `double` coordinates become `ℚ` (the editors only add, halve and compare
  coordinates, so field arithmetic is a faithful model of the control flow);
* `std::vector` becomes `List`, with out-of-range reads returning an explicit
  default and out-of-range writes being no-ops;
* external collaborators that the spec declares out of scope (the geometry
  oracle `tetra_validity` / `tetra_quality` / `circumradi2`, the shell
  re-meshing routine `attempt_zig_remesh`, `triangle_shifts`, the CGAL
  segment/triangle intersection, the smoothing kernels, the AMIPS energies
  and the wmtk tuple machinery) are abstract parameters collected in
  `Oracle` / `AdaOracle` records;
* `abort_and_debug` / `require` failures and C++ undefined behaviour on
  asserted-against paths are modelled by `Option` (`none` = the process
  aborts), while an ordinary rejected edit is `some (false, s)`.
-/

namespace Batm

/-- 3D point with rational coordinates (models Eigen `Vec3d`). -/
structure Vec3 where
  x : ℚ
  y : ℚ
  z : ℚ
deriving DecidableEq

def Vec3.zero : Vec3 := ⟨0, 0, 0⟩

def Vec3.add (a b : Vec3) : Vec3 := ⟨a.x + b.x, a.y + b.y, a.z + b.z⟩

def Vec3.half (a : Vec3) : Vec3 := ⟨a.x / 2, a.y / 2, a.z / 2⟩

/-- `(a + b) / 2`, the edge midpoint used by `split_edge`. -/
def midpoint3 (a b : Vec3) : Vec3 := (a.add b).half

/-- Indexed read with an int index: C++ `v[i]`; out of range gives default. -/
def getI {α : Type} (l : List α) (i : ℤ) (d : α) : α :=
  if 0 ≤ i then l.getD i.toNat d else d

/-- Indexed write with an int index; out of range is a no-op. -/
def setI {α : Type} (l : List α) (i : ℤ) (a : α) : List α :=
  if 0 ≤ i then l.set i.toNat a else l

/-- Read entry `j` of a small int array (`Vec3i`/`Vec4i`). -/
def getN (l : List ℤ) (j : ℕ) : ℤ := l.getD j (-1)

/-- `std::sort` on a small int array. -/
def sortInt (l : List ℤ) : List ℤ := l.insertionSort (· ≤ ·)

/-- Sorted duplicate-free list of an int list: models a `std::set<int>`. -/
def mkSet (l : List ℤ) : List ℤ := (sortInt l).dedup

/-- `set_inter` on sorted duplicate-free vectors (`std::set_intersection`). -/
def set_inter (A B : List ℕ) : List ℕ := A.filter (fun a => a ∈ B)

/-- `set_minus` (`std::set_difference`) on sorted duplicate-free vectors. -/
def set_minus (A B : List ℕ) : List ℕ := A.filter (fun a => a ∉ B)

/-- `set_insert`: insert at the `std::lower_bound` position. -/
def set_insert (A : List ℕ) (a : ℕ) : List ℕ := A.orderedInsert (· ≤ ·) a

/-- `replace`: overwrite the first occurrence of `a` by `b`; per the C++
release build, an array without `a` is returned unchanged. -/
def replace (arr : List ℤ) (a b : ℤ) : List ℤ :=
  match arr with
  | [] => []
  | x :: xs => if x = a then b :: xs else x :: replace xs a b

/-- The all-occurrence replace lambda local to `swap_edge`. -/
def replaceAll (arr : List ℤ) (a b : ℤ) : List ℤ :=
  arr.map (fun x => if x = a then b else x)

/-- `id_in_array`: index of `k` in `v`, or `-1`. -/
def id_in_array (v : List ℤ) (k : ℤ) : ℤ :=
  match v.findIdx? (fun x => x == k) with
  | some i => (i : ℤ)
  | none => -1

/-- `sorted_face conn j`: the sorted triple `conn[(1+k+j) % 4]`, `k = 0,1,2`. -/
def sorted_face (conn : List ℤ) (j : ℕ) : List ℤ :=
  sortInt [getN conn ((1 + j) % 4), getN conn ((2 + j) % 4), getN conn ((3 + j) % 4)]

/-- Modelled from the spec: the per-vertex attribute record of the missing
header `tetra_utils.hpp` (spec section 3, "Vertex"): floating position and
the optional shell-id `mid_id` (`-1` = interior), as used by the `.cpp`. -/
structure VertAttr where
  pos : Vec3 := Vec3.zero
  mid_id : ℤ := -1
deriving DecidableEq

instance : Inhabited VertAttr := ⟨{}⟩

/-- Modelled from the spec: the per-tet attribute record of the missing header
`tetra_utils.hpp` (spec section 3, "Tetrahedron"): connectivity, one boundary
tag per face (`-1` = interior) and the logical-removal flag. -/
structure TetAttr where
  conn : List ℤ := [-1, -1, -1, -1]
  prism_id : List ℤ := [-1, -1, -1, -1]
  is_removed : Bool := false
deriving DecidableEq

instance : Inhabited TetAttr := ⟨{}⟩

/-- The shell layer (`PrismCage`): base/mid/top pillars, triangle slots `F`
(`[-1,-1,-1]` = freed slot) and per-slot tracked reference primitives. -/
structure PrismCage where
  base : List Vec3 := []
  mid : List Vec3 := []
  top : List Vec3 := []
  F : List (List ℤ) := []
  track_ref : List (List ℤ) := []
deriving DecidableEq

/-- The fields of `prism::local::RemeshOptions` the editors read or write. -/
structure RemeshOptions where
  collapse_quality_threshold : ℚ := 0
  target_adjustment : List ℚ := []
  target_thickness : ℚ := 0
deriving DecidableEq

/-- The full mutable state an editor call sees: shell, options, vertex and tet
attribute stores and the vertex→tet adjacency. -/
structure MeshState where
  pc : PrismCage := {}
  opt : RemeshOptions := {}
  vert_attrs : List VertAttr := []
  tet_attrs : List TetAttr := []
  vert_conn : List (List ℕ) := []
deriving DecidableEq

/-- Abstract parameters for the external collaborators (spec section 2:
"Geometry Oracle ... consumed, not specified here", and the shell protocol's
numeric core). -/
structure Oracle where
  tetra_quality : Vec3 → Vec3 → Vec3 → Vec3 → ℚ
  circumradi2 : Vec3 → Vec3 → Vec3 → Vec3 → ℚ
  tetra_validity : Vec3 → Vec3 → Vec3 → Vec3 → Bool
  /-- `prism::local_validity::attempt_zig_remesh` on (old face ids, proposed
  triangles): `none` = nonzero failure flag (no mutation), `some` = the
  redistributed tracked sets. -/
  attempt_shell : List ℤ → List (List ℤ) → Option (List (List ℤ))
  /-- `prism::local_validity::triangle_shifts`, which rewrites the proposed
  triangle list in place before installation. -/
  triangle_shifts : List (List ℤ) → List (List ℤ)
  /-- `newton_position_from_stack` over the assembled 12-double stacks. -/
  newton_position : List (List ℚ) → Vec3
  /-- `prism::smoother_direction` (pan direction), `none` = no better location. -/
  smoother_direction : List ℤ → List ℤ → ℤ → Option Vec3
  /-- `prism::cgal::segment_triangle_intersection` of the pillar segment with
  one tracked reference triangle. -/
  seg_tri_isect : Vec3 → Vec3 → ℤ → Option Vec3
  /-- `prism::zoom` / `prism::rotate` (flag = rotate): new (base, top). -/
  zoom_rotate : Bool → List ℤ → List ℤ → ℤ → ℚ → Option (Vec3 × Vec3)

/-- `tetra_validity(vert_attrs, t)` of the four looked-up positions. -/
def tetra_validity (O : Oracle) (vert_attrs : List VertAttr) (t : List ℤ) : Bool :=
  O.tetra_validity (getI vert_attrs (getN t 0) default).pos
    (getI vert_attrs (getN t 1) default).pos
    (getI vert_attrs (getN t 2) default).pos
    (getI vert_attrs (getN t 3) default).pos

/-- `compute_quality`: max of the quality energy over `tets`, starting at 0. -/
def compute_quality (O : Oracle) (vert_attrs : List VertAttr)
    (tets : List (List ℤ)) : ℚ :=
  tets.foldl (fun mq t =>
    max mq (O.tetra_quality (getI vert_attrs (getN t 0) default).pos
      (getI vert_attrs (getN t 1) default).pos
      (getI vert_attrs (getN t 2) default).pos
      (getI vert_attrs (getN t 3) default).pos)) 0

/-- `max_tetra_sizes`: max squared circumradius over `tets`, starting at 0. -/
def max_tetra_sizes (O : Oracle) (vert_attrs : List VertAttr)
    (tets : List (List ℤ)) : ℚ :=
  tets.foldl (fun ms t =>
    max ms (O.circumradi2 (getI vert_attrs (getN t 0) default).pos
      (getI vert_attrs (getN t 1) default).pos
      (getI vert_attrs (getN t 2) default).pos
      (getI vert_attrs (getN t 3) default).pos)) 0

/-- `edge_adjacent_boundary_face`: boundary tags of faces that contain both
`v0` and `v1` among the tets incident to the edge. -/
def edge_adjacent_boundary_face (tet_attrs : List TetAttr)
    (vert_conn : List (List ℕ)) (v0 v1 : ℤ) : List ℤ :=
  let affected := set_inter (getI vert_conn v0 []) (getI vert_conn v1 [])
  affected.foldl (fun acc t =>
    let ta := tet_attrs.getD t default
    acc ++ (List.range 4).filterMap (fun j =>
      let pid := getN ta.prism_id j
      if pid ≠ -1 ∧ getN ta.conn j ≠ v0 ∧ getN ta.conn j ≠ v1 then some pid
      else none)) []

/-- Grow a vector to length `n` with default entries (`std::vector::resize`
on the growing side; the code only resizes upward). -/
def resizeTo {α : Type} (l : List α) (n : ℕ) (d : α) : List α :=
  if l.length < n then l ++ List.replicate (n - l.length) d else l

/-- `update_pc`: free the old shell slots, run `triangle_shifts` on the
proposed triangles, then install them (growing `F`/`track_ref` as needed).
Returns the new cage and the shifted triangle list (the C++ mutates the
caller's `new_conn` in place and callers pass it on to `update_tetra_conn`).
The spatial hash grids are not modelled (`top_grid == nullptr`). -/
def update_pc (O : Oracle) (pc : PrismCage) (old_fid new_fid : List ℤ)
    (new_conn : List (List ℤ)) (new_tracks : List (List ℤ)) :
    PrismCage × List (List ℤ) :=
  let F1 := old_fid.foldl (fun F i => setI F i [-1, -1, -1]) pc.F
  let conn2 := O.triangle_shifts new_conn
  let step := fun (acc : List (List ℤ) × List (List ℤ)) (p : ℤ × List ℤ × List ℤ) =>
    let (F, T) := acc
    let (f, c, tr) := p
    let F := if (F.length : ℤ) ≤ f then resizeTo F (f.toNat + 1) [0, 0, 0] else F
    let T := if (T.length : ℤ) ≤ f then resizeTo T (f.toNat + 1) [] else T
    (setI F f c, setI T f tr)
  let (F2, T2) := (new_fid.zip (conn2.zip new_tracks)).foldl step (F1, pc.track_ref)
  ({ pc with F := F2, track_ref := T2 }, conn2)

/-- Association list holding the `std::map<Vec3i, int>` of moved boundary
triangles: keys are sorted faces, kept unique by construction. -/
abbrev FaceMap := List (List ℤ × ℤ)

def fm_find (m : FaceMap) (k : List ℤ) : Option ℤ :=
  (m.find? (fun p => p.1 == k)).map (fun p => p.2)

/-- `std::map::emplace`: keep the existing binding on key collision. -/
def fm_emplace (m : FaceMap) (k : List ℤ) (v : ℤ) : FaceMap :=
  if (fm_find m k).isSome then m else m ++ [(k, v)]

/-- `std::map::insert_or_assign`: overwrite on key collision. -/
def fm_insert_or_assign (m : FaceMap) (k : List ℤ) (v : ℤ) : FaceMap :=
  if (fm_find m k).isSome then
    m.map (fun p => if p.1 = k then (k, v) else p)
  else m ++ [(k, v)]

/-- The boundary-tag reassignment of one freshly appended tet in
`update_tetra_conn`: match each face (by the sorted triple of its vertices'
shell-ids) against the moved-triangle map; returns the new attribute and how
many prism tags were assigned. -/
def assignTet (vert_attrs : List VertAttr) (fm : FaceMap) (t : List ℤ) :
    TetAttr × ℕ :=
  let tet_mid := t.map (fun v => (getI vert_attrs v default).mid_id)
  let r := (List.range 4).foldl (fun (acc : List ℤ × ℕ) j =>
    let face := sorted_face tet_mid j
    if face.headD (-1) = -1 then (acc.1 ++ [-1], acc.2)
    else
      match fm_find fm face with
      | some pid => (acc.1 ++ [pid], acc.2 + 1)
      | none => (acc.1 ++ [-1], acc.2)) ([], 0)
  ({ conn := t, prism_id := r.1, is_removed := false }, r.2)

/-- `update_tetra_conn`: mark the affected tets removed, append the new tets
(re-deriving their boundary tags from the old tags plus the freshly assigned
ones), and incrementally repair the vertex→tet adjacency. `none` models the
two fatal `require` checks. -/
def update_tetra_conn (vert_attrs : List VertAttr) (tet_attrs : List TetAttr)
    (vert_conn : List (List ℕ)) (affected : List ℕ)
    (new_tets : List (List ℤ)) (modified_pids : List ℤ)
    (modified_tris : List (List ℤ)) :
    Option (List TetAttr × List (List ℕ)) :=
  let vert_conn0 := resizeTo vert_conn vert_attrs.length []
  let tet_attrs1 := affected.foldl
    (fun ta ti => ta.set ti { ta.getD ti default with is_removed := true })
    tet_attrs
  let fm0 : FaceMap := affected.foldl (fun m ti =>
    let ta := tet_attrs.getD ti default
    (List.range 4).foldl (fun m j =>
      let pid := getN ta.prism_id j
      if pid = -1 then m
      else
        let face := sortInt ((List.range 3).map (fun k =>
          (getI vert_attrs (getN ta.conn ((j + k + 1) % 4)) default).mid_id))
        fm_emplace m face pid) m) []
  let fm := (modified_tris.zip modified_pids).foldl
    (fun m p => fm_insert_or_assign m (sortInt p.1) p.2) fm0
  let affected_verts := mkSet (affected.flatMap (fun t => (tet_attrs.getD t default).conn))
  let vc1 := affected_verts.foldl
    (fun vc v => setI vc v (set_minus (getI vc v []) affected)) vert_conn0
  let n0 := tet_attrs.length
  let vc2 := new_tets.enum.foldl (fun vc p =>
    p.2.foldl (fun vc v =>
      setI vc v (set_insert (set_minus (getI vc v []) affected) (n0 + p.1))) vc) vc1
  let newAttrs := new_tets.map (fun t => (assignTet vert_attrs fm t).1)
  let cnt := (new_tets.map (fun t => (assignTet vert_attrs fm t).2)).sum
  let tet_attrs2 := tet_attrs1 ++ newAttrs
  if modified_tris.length ≤ cnt then
    if modified_tris = [] ∧ fm.length ≠ cnt then none
    else some (tet_attrs2, vc2)
  else none

/-- Number of distinct (sorted) faces of non-removed tets carrying a
non-interior boundary tag — the left side of the sanity checker's
boundary-count test. -/
def boundary_face_count (tet_attrs : List TetAttr) : ℕ :=
  ((tet_attrs.filter (fun t => !t.is_removed)).flatMap (fun t =>
    (List.range 4).filterMap (fun j =>
      if getN t.prism_id j ≠ -1 then some (sorted_face t.conn j) else none))).dedup.length

/-- `count_pc_faces`: number of non-empty shell layer slots. -/
def pc_face_count (pc : PrismCage) : ℕ :=
  (pc.F.filter (fun f => f.headD (-1) ≠ -1)).length

/-- `tetmesh_sanity`: the five whole-mesh audits run after every accepted
edit. The fourth check models `igl::boundary_facets` as the faces of the
one-ring that occur in exactly one incident tet. -/
def tetmesh_sanity (O : Oracle) (tet_attrs : List TetAttr)
    (vert_attrs : List VertAttr) (vert_tet_conn : List (List ℕ))
    (pc : PrismCage) : Bool :=
  let live := tet_attrs.filter (fun t => !t.is_removed)
  let validAll := live.all (fun t => tetra_validity O vert_attrs t.conn)
  let sortedConns := live.map (fun t => sortInt t.conn)
  let noDupTet := sortedConns.dedup.length = sortedConns.length
  let allFaces := live.flatMap (fun t => (List.range 4).map (fun j => sorted_face t.conn j))
  let faceLe2 := allFaces.all (fun f => allFaces.count f ≤ 2)
  let bcountOK := boundary_face_count tet_attrs = pc_face_count pc
  let internalOK := (List.range vert_attrs.length).all (fun i =>
    let v := vert_attrs.getD i default
    if v.mid_id ≥ 0 then true
    else
      let nb := vert_tet_conn.getD i []
      if nb = [] then true
      else
        let starFaces := nb.flatMap (fun k =>
          (List.range 4).map (fun j => sorted_face (tet_attrs.getD k default).conn j))
        let bFaces := starFaces.filter (fun f => starFaces.count f = 1)
        !(bFaces.any (fun f => (i : ℤ) ∈ f)))
  let midOK := (List.range vert_attrs.length).all (fun i =>
    let v := vert_attrs.getD i default
    if v.mid_id ≠ -1 then v.pos = getI pc.mid v.mid_id Vec3.zero else true)
  validAll && (decide noDupTet && (faceLe2 && (decide bcountOK && (internalOK && midOK))))

/-- The editors' common final step: audit the committed state; a failed audit
is fatal (`abort_and_debug`), modelled by `none`. -/
def sanity_gate (O : Oracle) (s : MeshState) : Option (Bool × MeshState) :=
  if tetmesh_sanity O s.tet_attrs s.vert_attrs s.vert_conn s.pc then some (true, s)
  else none

/-- The affected set of `split_edge(v0, v1)`: non-removed tets incident to
both endpoints. -/
def split_affected (s : MeshState) (v0 v1 : ℤ) : List ℕ :=
  set_inter (getI s.vert_conn v0 []) (getI s.vert_conn v1 [])

/-- The proposed children of `split_edge`: for each affected tet, first the
copy with `v0` replaced by the new vertex `vx`, then the copy with `v1`
replaced by `vx`. -/
def split_new_tets (s : MeshState) (v0 v1 vx : ℤ) : List (List ℤ) :=
  (split_affected s v0 v1).flatMap (fun t =>
    [replace (s.tet_attrs.getD t default).conn v0 vx,
     replace (s.tet_attrs.getD t default).conn v1 vx])

/-- `split_edge(pc, option, vert_attrs, tet_attrs, vert_conn, v0, v1)`. -/
def split_edge (O : Oracle) (s : MeshState) (v0 v1 : ℤ) :
    Option (Bool × MeshState) :=
  let affected := split_affected s v0 v1
  let vx : ℤ := s.vert_attrs.length
  let bnd_pris := edge_adjacent_boundary_face s.tet_attrs s.vert_conn v0 v1
  let new_tets := split_new_tets s v0 v1 vx
  let midp := midpoint3 (getI s.vert_attrs v0 default).pos
    (getI s.vert_attrs v1 default).pos
  let va1 := s.vert_attrs ++ [{ pos := midp, mid_id := -1 }]
  let p_vx : ℤ := s.pc.mid.length
  let pv0 := (getI s.vert_attrs v0 default).mid_id
  let pv1 := (getI s.vert_attrs v1 default).mid_id
  -- boundary edge: also append one shell vertex (midpoints of the pillars)
  let va2 := if bnd_pris ≠ [] then
      s.vert_attrs ++ [{ pos := midp, mid_id := p_vx }] else va1
  let pc2 := if bnd_pris ≠ [] then
      { s.pc with
        top := s.pc.top ++ [midpoint3 (getI s.pc.top pv0 Vec3.zero) (getI s.pc.top pv1 Vec3.zero)]
        base := s.pc.base ++ [midpoint3 (getI s.pc.base pv0 Vec3.zero) (getI s.pc.base pv1 Vec3.zero)]
        mid := s.pc.mid ++ [midp] }
    else s.pc
  let opt2 := if bnd_pris ≠ [] then
      { s.opt with target_adjustment := s.opt.target_adjustment ++
        [(getI s.opt.target_adjustment pv0 0 + getI s.opt.target_adjustment pv1 0) / 2] }
    else s.opt
  -- the rollback lambda pops the new vertex AND the last entry of each of
  -- pc.top / pc.base / pc.mid, whether or not the boundary branch pushed one
  let pcRolled : PrismCage :=
    { pc2 with
        top := pc2.top.dropLast
        base := pc2.base.dropLast
        mid := pc2.mid.dropLast }
  let rollbackState : MeshState :=
    { pc := pcRolled
      opt := opt2
      vert_attrs := va2.dropLast
      tet_attrs := s.tet_attrs
      vert_conn := s.vert_conn }
  if ¬ new_tets.all (fun t => tetra_validity O va2 t) then some (false, rollbackState)
  else
    let shellRes : Option (PrismCage × List ℤ × List (List ℤ)) :=
      if bnd_pris ≠ [] then
        let pvx : ℤ := (pc2.mid.length : ℤ) - 1
        let f0 := bnd_pris.headD (-1)
        let f1 := bnd_pris.getLastD (-1)
        let old_fids : List ℤ := [f0, f1]
        let moved_tris : List (List ℤ) :=
          [replace (getI pc2.F f0 [-1, -1, -1]) pv0 pvx,
           replace (getI pc2.F f1 [-1, -1, -1]) pv0 pvx,
           replace (getI pc2.F f0 [-1, -1, -1]) pv1 pvx,
           replace (getI pc2.F f1 [-1, -1, -1]) pv1 pvx]
        match O.attempt_shell old_fids moved_tris with
        | none => none
        | some new_tracks =>
          let new_fid : List ℤ := [f0, f1, (pc2.F.length : ℤ), (pc2.F.length : ℤ) + 1]
          let r := update_pc O pc2 old_fids new_fid moved_tris new_tracks
          some (r.1, new_fid, r.2)
      else some (pc2, [], [])
    match shellRes with
    | none => some (false, rollbackState)
    | some (pc3, new_fid, moved_tris) =>
      match update_tetra_conn va2 s.tet_attrs s.vert_conn affected new_tets
          new_fid moved_tris with
      | none => none
      | some (ta2, vc2) =>
        sanity_gate O
          { pc := pc3, opt := opt2, vert_attrs := va2, tet_attrs := ta2,
            vert_conn := vc2 }

/-- The tets incident to `v1` only (= the whole collapse-affected set, a copy
of `vert_conn[v1]`). -/
def collapse_old_tets (s : MeshState) (v1_id : ℤ) : List (List ℤ) :=
  (getI s.vert_conn v1_id []).map (fun t => (s.tet_attrs.getD t default).conn)

/-- The replacement tets of `collapse_edge(v1, v2)`: tets of `v1` not
containing `v2`, with `v1` overwritten by `v2`. `none` models the undefined
write `line_tet[-1]` that the code's `assert(v1_i >= 0)` guards against. -/
def collapse_new_tets (s : MeshState) (v1_id v2_id : ℤ) :
    Option (List (List ℤ)) :=
  (getI s.vert_conn v1_id []).foldl (fun acc t =>
    match acc with
    | none => none
    | some l =>
      let c := (s.tet_attrs.getD t default).conn
      let v1_i := id_in_array c v1_id
      let v2_i := id_in_array c v2_id
      if 0 ≤ v2_i then some l
      else if v1_i < 0 then none
      else some (l ++ [c.set v1_i.toNat v2_id])) (some [])

/-- The vertex set spanned by a list of tets (`std::set<int>` of all conn
entries), for the link condition. -/
def vert_span (tets : List (List ℤ)) : Finset ℤ := tets.flatten.toFinset

/-- The quality gate of `collapse_edge` (line
`after_quality > option.collapse_quality_threshold && before_quality <
after_quality`). -/
def collapse_quality_reject (threshold before after : ℚ) : Bool :=
  decide (threshold < after) && decide (before < after)

/-- The boundary tags adjacent to `v_id` but not opposite it, sorted
(the `nb_pids` lambda of `collapse_edge`). -/
def nb_pids (s : MeshState) (v_id : ℤ) : List ℤ :=
  sortInt ((getI s.vert_conn v_id []).flatMap (fun t =>
    let ta := s.tet_attrs.getD t default
    (List.range 4).filterMap (fun j =>
      let pid := getN ta.prism_id j
      if getN ta.conn j ≠ v_id ∧ pid ≠ -1 then some pid else none)))

/-- `collapse_edge(pc, option, vert_attrs, tet_attrs, vert_conn, v1, v2,
size_control)`: merge `v1` into `v2`. -/
def collapse_edge (O : Oracle) (s : MeshState) (v1_id v2_id : ℤ)
    (size_control : ℚ) : Option (Bool × MeshState) :=
  let nb1 := getI s.vert_conn v1_id []
  let affected := nb1
  let mid1 := (getI s.vert_attrs v1_id default).mid_id
  let mid2 := (getI s.vert_attrs v2_id default).mid_id
  if mid1 ≠ -1 ∧ mid2 = -1 then some (false, s)
  else
    let bnd_faces := edge_adjacent_boundary_face s.tet_attrs s.vert_conn v1_id v2_id
    if bnd_faces = [] ∧ mid1 ≠ -1 ∧ mid2 ≠ -1 then some (false, s)
    else
      let old_tets := collapse_old_tets s v1_id
      let before_quality := compute_quality O s.vert_attrs old_tets
      match collapse_new_tets s v1_id v2_id with
      | none => none
      | some new_tets =>
        if ((vert_span new_tets).card : ℤ) ≠ ((vert_span old_tets).card : ℤ) - 1 then
          some (false, s)
        else
          let after_quality := compute_quality O s.vert_attrs new_tets
          if collapse_quality_reject s.opt.collapse_quality_threshold
              before_quality after_quality then some (false, s)
          else if size_control < max_tetra_sizes O s.vert_attrs new_tets then
            some (false, s)
          else if ¬ new_tets.all (fun t => tetra_validity O s.vert_attrs t) then
            some (false, s)
          else
            let shellRes : Option (PrismCage × List VertAttr × List ℤ × List (List ℤ)) :=
              if bnd_faces ≠ [] then
                let neighbor0 := nb_pids s v1_id
                let st := neighbor0.foldl
                  (fun (acc : List ℤ × List ℤ × List (List ℤ)) f =>
                    let tri := getI s.pc.F f [-1, -1, -1]
                    let old_fid := acc.1 ++ [f]
                    if id_in_array tri mid2 ≠ -1 then (old_fid, acc.2.1, acc.2.2)
                    else (old_fid, acc.2.1 ++ [f], acc.2.2 ++ [replace tri mid1 mid2]))
                  ([], [], [])
                match O.attempt_shell st.1 st.2.2 with
                | none => none
                | some new_tracks =>
                  let r := update_pc O s.pc st.1 st.2.1 st.2.2 new_tracks
                  some (r.1,
                    setI s.vert_attrs v1_id
                      { getI s.vert_attrs v1_id default with mid_id := mid2 },
                    st.2.1, r.2)
              else some (s.pc, s.vert_attrs, [], [])
            match shellRes with
            | none => some (false, s)
            | some (pc', va', new_fid, moved_tris) =>
              let vc0 := setI s.vert_conn v1_id []
              match update_tetra_conn va' s.tet_attrs vc0 affected new_tets
                  new_fid moved_tris with
              | none => none
              | some (ta2, vc2) =>
                let va2 := setI va' v1_id
                  { getI va' v1_id default with pos := Vec3.zero, mid_id := -1 }
                sanity_gate O
                  { pc := pc', opt := s.opt, vert_attrs := va2,
                    tet_attrs := ta2, vert_conn := vc2 }

/-- The affected set of `swap_edge(v1, v2)` / the first two intersections of
`swap_face`. -/
def swap_affected (s : MeshState) (v1_id v2_id : ℤ) : List ℕ :=
  set_inter (getI s.vert_conn v1_id []) (getI s.vert_conn v2_id [])

/-- The two replacement tets of the 3-2 `swap_edge`: find the shared/opposite
ring vertices `n0, n1, n2` and rewrite the first two affected tets. -/
def swap_new_tets (s : MeshState) (v1_id v2_id : ℤ) : List (List ℤ) :=
  let affected := swap_affected s v1_id v2_id
  let c0 := (s.tet_attrs.getD (affected.getD 0 0) default).conn
  let c1 := (s.tet_attrs.getD (affected.getD 1 0) default).conn
  let c2 := (s.tet_attrs.getD (affected.getD 2 0) default).conn
  let nn := (List.range 4).foldl (fun (acc : ℤ × ℤ × ℤ) j =>
    let v0j := getN c0 j
    let n1 := if v0j ≠ v1_id ∧ v0j ≠ v2_id ∧ id_in_array c1 v0j ≠ -1 then v0j
      else acc.2.1
    let n2 := if v0j ≠ v1_id ∧ v0j ≠ v2_id ∧ id_in_array c2 v0j ≠ -1 then v0j
      else acc.2.2
    let n0 := if id_in_array c0 (getN c1 j) = -1 then getN c1 j else acc.1
    (n0, n1, n2)) (-1, -1, -1)
  [replaceAll c0 v2_id nn.1, replaceAll c1 v1_id nn.2.2]

/-- `swap_edge(pc, option, vert_attrs, tet_attrs, vert_conn, v1, v2,
size_control)`: the 3-2 edge-to-face swap. -/
def swap_edge (O : Oracle) (s : MeshState) (v1_id v2_id : ℤ)
    (size_control : ℚ) : Option (Bool × MeshState) :=
  let affected := swap_affected s v1_id v2_id
  if affected.length ≠ 3 then some (false, s)
  else
    let bnd_faces := edge_adjacent_boundary_face s.tet_attrs s.vert_conn v1_id v2_id
    if bnd_faces ≠ [] then some (false, s)
    else
      let old_tets := affected.map (fun t => (s.tet_attrs.getD t default).conn)
      let before_quality := compute_quality O s.vert_attrs old_tets
      let new_tets := swap_new_tets s v1_id v2_id
      if size_control < max_tetra_sizes O s.vert_attrs new_tets then some (false, s)
      else if before_quality < compute_quality O s.vert_attrs new_tets then
        some (false, s)
      else if ¬ new_tets.all (fun t => tetra_validity O s.vert_attrs t) then
        some (false, s)
      else
        match update_tetra_conn s.vert_attrs s.tet_attrs s.vert_conn
            affected new_tets [] [] with
        | none => none
        | some (ta2, vc2) =>
          sanity_gate O
            { pc := s.pc, opt := s.opt, vert_attrs := s.vert_attrs,
              tet_attrs := ta2, vert_conn := vc2 }

/-- `find_other`: the first vertex of `tet` not among `tri` (or `-1`). -/
def find_other (tet : List ℤ) (tri : List ℤ) : ℤ :=
  ((List.range 4).foldl (fun acc j =>
    match acc with
    | some u => some u
    | none => if id_in_array tri (getN tet j) = -1 then some (getN tet j) else none)
    none).getD (-1)

/-- `swap_face(pc, option, vert_attrs, tet_attrs, vert_conn, v0, v1, v2,
size_control)`: the 2-3 face-to-edge swap (internal faces only). -/
def swap_face (O : Oracle) (s : MeshState) (v0_id v1_id v2_id : ℤ)
    (size_control : ℚ) : Option (Bool × MeshState) :=
  let affected := set_inter (swap_affected s v0_id v1_id) (getI s.vert_conn v2_id [])
  if affected.length ≠ 2 then some (false, s)
  else
    let t0 := affected.headD 0
    let t1 := affected.getLastD 0
    let old_tets := affected.map (fun t => (s.tet_attrs.getD t default).conn)
    let before_quality := compute_quality O s.vert_attrs old_tets
    let u1 := find_other (s.tet_attrs.getD t1 default).conn [v0_id, v1_id, v2_id]
    let c0 := (s.tet_attrs.getD t0 default).conn
    let new_tets := [replace c0 v0_id u1, replace c0 v1_id u1, replace c0 v2_id u1]
    if ¬ new_tets.all (fun t => tetra_validity O s.vert_attrs t) then some (false, s)
    else if before_quality < compute_quality O s.vert_attrs new_tets then
      some (false, s)
    else if size_control < max_tetra_sizes O s.vert_attrs new_tets then
      some (false, s)
    else
      match update_tetra_conn s.vert_attrs s.tet_attrs s.vert_conn
          affected new_tets [] [] with
      | none => none
      | some (ta2, vc2) =>
        sanity_gate O
          { pc := s.pc, opt := s.opt, vert_attrs := s.vert_attrs,
            tet_attrs := ta2, vert_conn := vc2 }

/-- One call to any of the four topology editors, for claims quantifying over
"any editor call". -/
inductive EditorCall where
  | splitE (v0 v1 : ℤ)
  | collapseE (v1 v2 : ℤ) (size_control : ℚ)
  | swapEdgeE (v1 v2 : ℤ) (size_control : ℚ)
  | swapFaceE (v0 v1 v2 : ℤ) (size_control : ℚ)
deriving DecidableEq

def runEditor (O : Oracle) (c : EditorCall) (s : MeshState) :
    Option (Bool × MeshState) :=
  match c with
  | .splitE v0 v1 => split_edge O s v0 v1
  | .collapseE v1 v2 sc => collapse_edge O s v1 v2 sc
  | .swapEdgeE v1 v2 sc => swap_edge O s v1 v2 sc
  | .swapFaceE v0 v1 v2 sc => swap_face O s v0 v1 v2 sc

/-- The orientation-preserving reorder table of `get_newton_position`,
bringing `v0` to the front of a tet's connectivity. -/
def orient_preserve_tet_reorder (conn : List ℤ) (v0 : ℤ) : List ℤ :=
  let reorder : List (List ℕ) := [[0, 1, 2, 3], [1, 0, 3, 2], [2, 0, 1, 3], [3, 1, 0, 2]]
  let vl_id := id_in_array conn v0
  let row := if 0 ≤ vl_id then reorder.getD vl_id.toNat [0, 1, 2, 3] else [0, 1, 2, 3]
  row.map (fun j => getN conn j)

/-- The 12-coordinate stacks `get_newton_position` assembles before calling
the external Newton solver. -/
def newton_assembles (vert_attrs : List VertAttr) (tet_attrs : List TetAttr)
    (nb : List ℕ) (v0 : ℤ) : List (List ℚ) :=
  nb.map (fun t =>
    let lv := orient_preserve_tet_reorder (tet_attrs.getD t default).conn v0
    lv.flatMap (fun v =>
      let p := (getI vert_attrs v default).pos
      [p.x, p.y, p.z]))

/-- `get_snap_position`: first intersection of the `v0` pillar segment with
the union of the tracked reference triangles of the neighbouring prisms
(iterated in `std::set` order). -/
def get_snap_position (O : Oracle) (pc : PrismCage) (neighbor_pris : List ℤ)
    (v0 : ℤ) : Option Vec3 :=
  let total_trackee := mkSet (neighbor_pris.flatMap (fun f => getI pc.track_ref f []))
  total_trackee.foldl (fun acc f =>
    match acc with
    | some p => some p
    | none => O.seg_tri_isect (getI pc.top v0 Vec3.zero)
        (getI pc.base v0 Vec3.zero) f) none

inductive SmoothType where
  | kInteriorNewton
  | kSurfaceSnap
  | kShellPan
  | kShellZoom
  | kShellRotate
deriving DecidableEq

/-- The boundary tags adjacent to, but not opposite, `v0` among its incident
tets (the `neighbor_pris` loop of `smooth_vertex`). -/
def smooth_neighbor_pris (s : MeshState) (v0 : ℤ) : List ℤ :=
  (getI s.vert_conn v0 []).flatMap (fun t =>
    let ta := s.tet_attrs.getD t default
    (List.range 4).filterMap (fun j =>
      let pid := getN ta.prism_id j
      if pid ≠ -1 ∧ getN ta.conn j ≠ v0 then some pid else none))

/-- The `rollback` lambda of `smooth_vertex`: restore `v0`'s position (saved
at entry from `s`) and, for a boundary vertex, its three pillar entries. -/
def smooth_rollback (s : MeshState) (v0 : ℤ) (cur : MeshState) :
    Bool × MeshState :=
  let old_pos := (getI s.vert_attrs v0 default).pos
  let pv0 := (getI s.vert_attrs v0 default).mid_id
  let va := setI cur.vert_attrs v0
    { getI cur.vert_attrs v0 default with pos := old_pos }
  let pcr := if pv0 ≠ -1 then
      { cur.pc with
          base := setI cur.pc.base pv0 (getI s.pc.base pv0 Vec3.zero)
          mid := setI cur.pc.mid pv0 (getI s.pc.mid pv0 Vec3.zero)
          top := setI cur.pc.top pv0 (getI s.pc.top pv0 Vec3.zero) }
    else cur.pc
  (false, { cur with vert_attrs := va, pc := pcr })

/-- The snap step shared by `kSurfaceSnap` and `kShellPan`: project the
pillar segment onto the tracked surface, moving `v0` and its mid pillar. -/
def smooth_snap_state (O : Oracle) (s1 : MeshState) (neighbor_pris : List ℤ)
    (v0 pv0 : ℤ) : Except MeshState MeshState :=
  match get_snap_position O s1.pc neighbor_pris pv0 with
  | none => .error s1
  | some p =>
    let va := setI s1.vert_attrs v0 { getI s1.vert_attrs v0 default with pos := p }
    .ok { s1 with
      vert_attrs := va
      pc := { s1.pc with mid := setI s1.pc.mid pv0 p } }

/-- The position/pillar update phase of `smooth_vertex` (Newton, snap,
pan-then-snap, or zoom/rotate), unrolled per smoothing mode; `Except.error`
carries the state at the failure point, which the caller hands to
`smooth_rollback`. -/
def smooth_stage1 (O : Oracle) (s : MeshState) (smooth_type : SmoothType)
    (v0 : ℤ) : Except MeshState MeshState :=
  let tet_nb := getI s.vert_conn v0 []
  let pv0 := (getI s.vert_attrs v0 default).mid_id
  let neighbor_pris := smooth_neighbor_pris s v0
  let nbi := neighbor_pris.map (fun f => id_in_array (getI s.pc.F f [-1, -1, -1]) pv0)
  match smooth_type with
  | .kInteriorNewton =>
    let p := O.newton_position (newton_assembles s.vert_attrs s.tet_attrs tet_nb v0)
    let va := setI s.vert_attrs v0 { getI s.vert_attrs v0 default with pos := p }
    .ok { s with vert_attrs := va }
  | .kSurfaceSnap => smooth_snap_state O s neighbor_pris v0 pv0
  | .kShellPan =>
    match O.smoother_direction neighbor_pris nbi pv0 with
    | none => .error s
    | some d =>
      smooth_snap_state O
        { s with pc :=
          { s.pc with
              base := setI s.pc.base pv0 ((getI s.pc.base pv0 Vec3.zero).add d)
              mid := setI s.pc.mid pv0 ((getI s.pc.mid pv0 Vec3.zero).add d)
              top := setI s.pc.top pv0 ((getI s.pc.top pv0 Vec3.zero).add d) } }
        neighbor_pris v0 pv0
  | .kShellZoom =>
    match O.zoom_rotate false neighbor_pris nbi pv0 s.opt.target_thickness with
    | none => .error s
    | some bt =>
      .ok { s with pc :=
        { s.pc with
            base := setI s.pc.base pv0 bt.1
            top := setI s.pc.top pv0 bt.2 } }
  | .kShellRotate =>
    match O.zoom_rotate true neighbor_pris nbi pv0 s.opt.target_thickness with
    | none => .error s
    | some bt =>
      .ok { s with pc :=
        { s.pc with
            base := setI s.pc.base pv0 bt.1
            top := setI s.pc.top pv0 bt.2 } }

/-- The acceptance phase of `smooth_vertex`: interior size gate, validity of
the one-ring, and for a boundary vertex the shell protocol plus `update_pc`. -/
def smooth_checks (O : Oracle) (s : MeshState) (v0 : ℤ) (size_control : ℚ)
    (s2 : MeshState) : Except MeshState MeshState :=
  let tet_nb := getI s.vert_conn v0 []
  let pv0 := (getI s.vert_attrs v0 default).mid_id
  if pv0 = -1 ∧ size_control < max_tetra_sizes O s2.vert_attrs
      (tet_nb.map (fun t => (s2.tet_attrs.getD t default).conn)) then .error s2
  else if ¬ tet_nb.all (fun ti =>
      tetra_validity O s2.vert_attrs (s2.tet_attrs.getD ti default).conn) then
    .error s2
  else if pv0 ≠ -1 then
    let old_fids := tet_nb.flatMap (fun t =>
      let ta := s2.tet_attrs.getD t default
      (List.range 4).filterMap (fun j =>
        if getN ta.prism_id j ≠ -1 ∧ getN ta.conn j ≠ v0 then
          some (getN ta.prism_id j)
        else none))
    let moved_tris := old_fids.map (fun f => getI s2.pc.F f [-1, -1, -1])
    match O.attempt_shell old_fids moved_tris with
    | none => .error s2
    | some new_tracks =>
      .ok { s2 with
        pc := (update_pc O s2.pc old_fids old_fids moved_tris new_tracks).1 }
  else .ok s2

/-- `smooth_vertex(pc, option, vert_attrs, tet_attrs, vert_conn, smooth_type,
v0, size_control)`. -/
def smooth_vertex (O : Oracle) (s : MeshState) (smooth_type : SmoothType)
    (v0 : ℤ) (size_control : ℚ) : Bool × MeshState :=
  match (smooth_stage1 O s smooth_type v0).bind
      (smooth_checks O s v0 size_control) with
  | .error st => smooth_rollback s v0 st
  | .ok s3 => (true, s3)

/-! ## AdaMesh (`AdaMesh_smooth.cpp`): rounding and rational quality -/

/-- A `double` value as the AdaMesh quality code observes it: finite (as an
exact rational), an infinity, or NaN. -/
inductive Dbl where
  | fin (q : ℚ)
  | pinf
  | ninf
  | nan
deriving DecidableEq

def dbl_isinf (e : Dbl) : Bool :=
  match e with
  | .pinf => true
  | .ninf => true
  | _ => false

def dbl_isnan (e : Dbl) : Bool :=
  match e with
  | .nan => true
  | _ => false

/-- IEEE `<` on the modelled doubles (any comparison with NaN is false). -/
def dbl_lt (a b : Dbl) : Bool :=
  match a, b with
  | .nan, _ => false
  | _, .nan => false
  | .fin x, .fin y => decide (x < y)
  | .ninf, .ninf => false
  | .ninf, _ => true
  | _, .ninf => false
  | .pinf, _ => false
  | .fin _, .pinf => true

/-- The minimum-valid AMIPS energy `27 - 1e-3`. -/
def min_valid_energy : ℚ := 27 - 1 / 1000

/-- The large sentinel `1e50` returned for invalid energies. -/
def dbl_sentinel : Dbl := .fin (10 ^ 50)

/-- The final clamp of `AdaMesh::quality`: infinite, NaN or below-threshold
energies become the sentinel. -/
def dbl_clamp (e : Dbl) : Dbl :=
  if dbl_isinf e || dbl_isnan e || dbl_lt e (.fin min_valid_energy) then dbl_sentinel
  else e

/-- `AdaMesh::VertexAttributes`: float position, exact rational position and
the rounded flag (the fields `round`/`quality` read or write). -/
structure AVert where
  m_posf : Vec3 := Vec3.zero
  m_posr : Vec3 := Vec3.zero
  rounded : Bool := false
deriving DecidableEq

instance : Inhabited AVert := ⟨{}⟩

structure AdaState where
  vertex_attrs : List AVert := []
deriving DecidableEq

/-- Abstract parameters for the wmtk tuple machinery and the external AMIPS
energies used by `AdaMesh::round` / `AdaMesh::quality`. -/
structure AdaOracle where
  /-- `tuple_from_vertex(i).is_valid(m)`. -/
  vertex_valid : ℕ → Bool
  /-- `get_one_ring_tets_for_vertex`, as abstract tet-tuple handles. -/
  one_ring : ℕ → List ℕ
  /-- `Tuple::is_valid` on a tet tuple. -/
  tet_tuple_valid : ℕ → Bool
  /-- `oriented_tet_vids`. -/
  oriented_tet_vids : ℕ → List ℕ
  /-- `AMIPS_energy_rational_p3` of the four exact rational positions. -/
  amips_rational : List Vec3 → Dbl
  /-- `AMIPS_energy_stable_p3` of the four float positions. -/
  amips_stable : List Vec3 → Dbl
  /-- `AMIPS_energy_stable_p3` applied to the partially-initialized buffer
  (undefined behaviour on the `energy == -1` fall-through): an arbitrary
  value. -/
  amips_uninit : List ℕ → Dbl

/-- `AdaMesh::is_invert`: the committed body is a stub (`// TODO:`) that
returns `false` for an invalid tuple and `true` otherwise. -/
def AdaMesh_is_invert (O : AdaOracle) (t : ℕ) : Bool :=
  if ¬ O.tet_tuple_valid t then false else true

/-- `AdaMesh::round(i)`: tentatively trust the float position, re-validate
the one-ring, revert on inversion. -/
def AdaMesh_round (O : AdaOracle) (s : AdaState) (i : ℕ) : Bool × AdaState :=
  if ¬ O.vertex_valid i then (true, s)
  else
    let va := s.vertex_attrs.getD i default
    if va.rounded then (true, s)
    else
      let old_pos := va.m_posr
      let s1 : AdaState := ⟨s.vertex_attrs.set i
        { va with m_posr := va.m_posf, rounded := true }⟩
      if (O.one_ring i).any (fun t => AdaMesh_is_invert O t) then
        let va1 := s1.vertex_attrs.getD i default
        (false, ⟨s1.vertex_attrs.set i { va1 with rounded := false, m_posr := old_pos }⟩)
      else (true, s1)

/-- `AdaMesh::quality(t)`: rational AMIPS of all four vertices if any is
unrounded, float AMIPS otherwise, then the sentinel clamp. The internal
`-1.0` "not yet computed" marker is modelled exactly: a rational energy equal
to `-1` falls through to the (uninitialized) float path. -/
def AdaMesh_quality (O : AdaOracle) (s : AdaState) (t : ℕ) : Dbl :=
  let vs := O.oriented_tet_vids t
  let anyUnrounded := vs.any (fun v => !(s.vertex_attrs.getD v default).rounded)
  let energy0 : Dbl :=
    if anyUnrounded then
      O.amips_rational (vs.map (fun v => (s.vertex_attrs.getD v default).m_posr))
    else .fin (-1)
  let energy1 : Dbl :=
    if energy0 = .fin (-1) then
      if anyUnrounded then O.amips_uninit vs
      else O.amips_stable (vs.map (fun v => (s.vertex_attrs.getD v default).m_posf))
    else energy0
  dbl_clamp energy1

/-! ## List-index helper lemmas -/

theorem getD_set_self {α : Type} (l : List α) (n : ℕ) (a d : α)
    (h : n < l.length) : (l.set n a).getD n d = a := by
  induction l generalizing n with
  | nil => simp at h
  | cons x xs ih =>
    cases n with
    | zero => rfl
    | succ m => simpa using ih m (by simpa using h)

theorem length_setI {α : Type} (l : List α) (i : ℤ) (a : α) :
    (setI l i a).length = l.length := by
  unfold setI
  split <;> simp

theorem getI_setI_self {α : Type} (l : List α) (i : ℤ) (a d : α) :
    getI (setI l i a) i d = if 0 ≤ i ∧ i.toNat < l.length then a else getI l i d := by
  unfold getI setI
  by_cases h : 0 ≤ i
  · by_cases h2 : i.toNat < l.length
    · simp [h, h2, getD_set_self]
    · rw [List.set_eq_of_length_le (by omega)]
      simp [h, h2]
  · simp [h]

theorem getD_append_right {α : Type} (l1 l2 : List α) (k : ℕ) (d : α) :
    (l1 ++ l2).getD (l1.length + k) d = l2.getD k d := by
  induction l1 with
  | nil => simp
  | cons x xs ih => simpa [Nat.succ_add] using ih

theorem getD_map_lt {α β : Type} (f : α → β) (l : List α) (k : ℕ) (d : β)
    (d' : α) (h : k < l.length) : (l.map f).getD k d = f (l.getD k d') := by
  induction l generalizing k with
  | nil => simp at h
  | cons x xs ih =>
    cases k with
    | zero => rfl
    | succ m => simpa using ih m (by simpa using h)

theorem flatMap_pair_length {α β : Type} (f g : α → β) (l : List α) :
    (l.flatMap (fun t => [f t, g t])).length = 2 * l.length := by
  induction l with
  | nil => rfl
  | cons x xs ih =>
    simp only [List.flatMap_cons, List.length_append, List.length_cons, ih]
    simp [Nat.mul_succ]
    omega

theorem flatMap_pair_getD {α β : Type} (f g : α → β) (l : List α) (k : ℕ)
    (d : β) (d' : α) (h : k < l.length) :
    (l.flatMap (fun t => [f t, g t])).getD (2 * k) d = f (l.getD k d') ∧
    (l.flatMap (fun t => [f t, g t])).getD (2 * k + 1) d = g (l.getD k d') := by
  induction l generalizing k with
  | nil => simp at h
  | cons x xs ih =>
    cases k with
    | zero => simp [List.flatMap_cons]
    | succ m =>
      have h2 : 2 * (m + 1) = (2 * m + 1) + 1 := by omega
      have h3 : 2 * (m + 1) + 1 = ((2 * m + 1) + 1) + 1 := by omega
      have := ih m (by simpa using h)
      simpa [List.flatMap_cons, h2, h3] using this

theorem mark_removed_length (aff : List ℕ) (ta : List TetAttr) :
    (aff.foldl
      (fun ta ti => ta.set ti { ta.getD ti default with is_removed := true })
      ta).length = ta.length := by
  induction aff generalizing ta with
  | nil => rfl
  | cons x xs ih =>
    simp only [List.foldl_cons]
    rw [ih]
    simp [List.length_set]

theorem getI_append_last {α : Type} (l : List α) (e d : α) :
    getI (l ++ [e]) (l.length : ℤ) d = e := by
  unfold getI
  have h0 : (0 : ℤ) ≤ (l.length : ℤ) := by positivity
  have h1 : ((l.length : ℤ)).toNat = l.length := by omega
  rw [if_pos h0, h1]
  simp


/-! ## Concrete oracles and states used as witnesses and counterexamples -/

/-- An oracle with a given quality metric and constant validity verdict; the
other externals are inert. -/
def constOracle (q : Vec3 → Vec3 → Vec3 → Vec3 → ℚ) (v : Bool) : Oracle :=
  { tetra_quality := q
    circumradi2 := fun _ _ _ _ => 0
    tetra_validity := fun _ _ _ _ => v
    attempt_shell := fun _ _ => some []
    triangle_shifts := fun l => l
    newton_position := fun _ => Vec3.zero
    smoother_direction := fun _ _ _ => none
    seg_tri_isect := fun _ _ _ => none
    zoom_rotate := fun _ _ _ _ _ => none }

def O_reject : Oracle := constOracle (fun _ _ _ _ => 0) false

def O_accept : Oracle := constOracle (fun _ _ _ _ => 0) true

/-- Quality = x-coordinate of the first vertex: drives the collapse quality
gate in the C4 witness. -/
def O_gate : Oracle := constOracle (fun a _ _ _ => a.x) true

def pt (a b c : ℚ) : Vec3 := ⟨a, b, c⟩

/-- One interior tet `(0,1,2,3)`; the shell arrays hold one (unreferenced)
pillar so that the length change under the buggy rollback is observable. -/
def S1 : MeshState :=
  { pc := { base := [pt 9 9 9], mid := [pt 9 9 9], top := [pt 9 9 9], F := [], track_ref := [] }
    opt := { collapse_quality_threshold := 1 }
    vert_attrs := [{ pos := pt 0 0 0 }, { pos := pt 1 0 0 },
      { pos := pt 0 1 0 }, { pos := pt 0 0 1 }]
    tet_attrs := [{ conn := [0, 1, 2, 3] }]
    vert_conn := [[0], [0], [0], [0]] }

/-- A single interior tet: collapsing `0 → 1` deletes the only tet, so the
link condition fails. -/
def S3 : MeshState :=
  { opt := { collapse_quality_threshold := 1 }
    vert_attrs := [{ pos := pt 0 0 0 }, { pos := pt 1 0 0 },
      { pos := pt 0 1 0 }, { pos := pt 0 0 1 }]
    tet_attrs := [{ conn := [0, 1, 2, 3] }]
    vert_conn := [[0], [0], [0], [0]] }

/-- Two interior tets `(0,1,2,3)`, `(0,2,3,4)`; collapsing `0 → 1` passes the
link condition; with `O_gate` the replacement quality is `100`. -/
def S4 : MeshState :=
  { opt := { collapse_quality_threshold := 1 }
    vert_attrs := [{ pos := pt 0 0 0 }, { pos := pt 100 0 0 },
      { pos := pt 0 1 0 }, { pos := pt 0 0 1 }, { pos := pt 1 1 1 }]
    tet_attrs := [{ conn := [0, 1, 2, 3] }, { conn := [0, 2, 3, 4] }]
    vert_conn := [[0, 1], [0], [0, 1], [0, 1], [1]] }

/-- A ring of three tets around the edge `(0, 1)` (ring vertices `2, 3, 4`).
All five vertices carry shell-ids with matching `pc.mid` positions and no
face is tagged, so the sanity checker accepts the post-edit states. -/
def S5 : MeshState :=
  { pc := { base := [], mid := [pt 0 0 0, pt 0 0 3, pt 1 0 1, pt 0 1 1, pt (-1) (-1) 1], top := [], F := [], track_ref := [] }
    opt := { collapse_quality_threshold := 1 }
    vert_attrs := [{ pos := pt 0 0 0, mid_id := 0 }, { pos := pt 0 0 3, mid_id := 1 },
      { pos := pt 1 0 1, mid_id := 2 }, { pos := pt 0 1 1, mid_id := 3 },
      { pos := pt (-1) (-1) 1, mid_id := 4 }]
    tet_attrs := [{ conn := [0, 1, 2, 3] }, { conn := [0, 1, 3, 4] },
      { conn := [0, 1, 4, 2] }]
    vert_conn := [[0, 1, 2], [0, 1, 2], [0, 2], [0, 1], [1, 2]] }

/-- `S5` with one boundary tag on a face containing the edge `(0, 1)`. -/
def S5b : MeshState :=
  { S5 with tet_attrs := [{ conn := [0, 1, 2, 3], prism_id := [-1, -1, 0, -1] },
      { conn := [0, 1, 3, 4] }, { conn := [0, 1, 4, 2] }] }

/-- Two tets sharing the face `(0,1,2)`, all vertices with shell-ids and no
tags: `swap_face 0 1 2` succeeds under `O_accept`. -/
def S2f : MeshState :=
  { pc := { base := [], mid := [pt 0 0 0, pt 1 0 0, pt 0 1 0, pt 0 0 1, pt 0 0 (-1)], top := [], F := [], track_ref := [] }
    opt := { collapse_quality_threshold := 1 }
    vert_attrs := [{ pos := pt 0 0 0, mid_id := 0 }, { pos := pt 1 0 0, mid_id := 1 },
      { pos := pt 0 1 0, mid_id := 2 }, { pos := pt 0 0 1, mid_id := 3 },
      { pos := pt 0 0 (-1), mid_id := 4 }]
    tet_attrs := [{ conn := [0, 1, 2, 3] }, { conn := [0, 1, 2, 4] }]
    vert_conn := [[0, 1], [0, 1], [0, 1], [0], [1]] }

/-- Vertex `0` is interior (`mid_id = -1`), vertex `1` carries shell-id `0`:
the configuration the reverse half of C7 is about. Collapsing `0 → 1`
succeeds. -/
def S7 : MeshState :=
  { pc := { base := [], mid := [pt 100 0 0, pt 0 1 0, pt 0 0 1, pt 1 1 1], top := [], F := [], track_ref := [] }
    opt := { collapse_quality_threshold := 1 }
    vert_attrs := [{ pos := pt 0 0 0 }, { pos := pt 100 0 0, mid_id := 0 },
      { pos := pt 0 1 0, mid_id := 1 }, { pos := pt 0 0 1, mid_id := 2 },
      { pos := pt 1 1 1, mid_id := 3 }]
    tet_attrs := [{ conn := [0, 1, 2, 3] }, { conn := [0, 2, 3, 4] }]
    vert_conn := [[0, 1], [0], [0, 1], [0, 1], [1]] }

/-! ## Claim theorems -/

/-- **C1** (code-bug evaluation): `split_edge` on the strictly interior edge
`(0, 1)` of `S1` is rejected because a child tet fails the validity test, yet
the rollback pops the last entry of each of `pc.top` / `pc.base` / `pc.mid`
even though the interior path never pushed one: every shell pillar array
shrinks from length 1 to length 0, contradicting "for any editor call that
returns `false` ... the shell layer arrays ... are byte-identical". -/
theorem c1_interior_split_rejection_corrupts_shell :
    split_edge O_reject S1 0 1 =
      some (false,
        { S1 with pc := { S1.pc with base := [], mid := [], top := [] } }) ∧
    edge_adjacent_boundary_face S1.tet_attrs S1.vert_conn 0 1 = [] ∧
    S1.pc.mid ≠ [] := by decide

/-- **C7** (counterexample): vertex `0` has no shell-id while vertex `1` has
one, yet `collapse_edge(0, 1)` is not rejected: it returns `true` and mutates
the stores (vertex 0's adjacency list is emptied). This refutes the "or vice
versa" half of the claim. -/
theorem c7_counterexample_interior_into_boundary_succeeds :
    (getI S7.vert_attrs 0 default).mid_id = -1 ∧
    (getI S7.vert_attrs 1 default).mid_id ≠ -1 ∧
    (collapse_edge O_accept S7 0 1 1).map Prod.fst = some true ∧
    (collapse_edge O_accept S7 0 1 1).map (fun p => p.2.vert_conn) ≠
      some S7.vert_conn := by decide

/-- **C7** (amended): only the direction "`v1` has a shell-id and `v2` does
not" is rejected, immediately and with no mutation; the reverse asymmetric
direction is not rejected by this check. -/
theorem c7_amended_boundary_into_interior_rejected (O : Oracle) (s : MeshState)
    (v1 v2 : ℤ) (sc : ℚ)
    (h1 : (getI s.vert_attrs v1 default).mid_id ≠ -1)
    (h2 : (getI s.vert_attrs v2 default).mid_id = -1) :
    collapse_edge O s v1 v2 sc = some (false, s) := by
  unfold collapse_edge
  simp only []
  rw [if_pos ⟨h1, h2⟩]

/-- Witness for the amended C7 theorem: collapsing the boundary vertex `1` of
`S7` into the interior vertex `0` is rejected unchanged. -/
theorem c7_amended_witness :
    (getI S7.vert_attrs 1 default).mid_id ≠ -1 ∧
    (getI S7.vert_attrs 0 default).mid_id = -1 ∧
    collapse_edge O_accept S7 1 0 1 = some (false, S7) :=
  ⟨by decide, by decide,
    c7_amended_boundary_into_interior_rejected O_accept S7 1 0 1 (by decide)
      (by decide)⟩

/-- **C3**: whenever the vertex set spanned by the replacement tets is not
exactly one element smaller than the vertex set spanned by all tets incident
to `v1`, `collapse_edge` returns `false` and the state is unchanged. -/
theorem c3_collapse_link_condition_rejects (O : Oracle) (s : MeshState)
    (v1 v2 : ℤ) (sc : ℚ) (nt : List (List ℤ))
    (hnt : collapse_new_tets s v1 v2 = some nt)
    (hlink : ((vert_span nt).card : ℤ) ≠
      ((vert_span (collapse_old_tets s v1)).card : ℤ) - 1) :
    collapse_edge O s v1 v2 sc = some (false, s) := by
  unfold collapse_edge
  simp only [hnt]
  split_ifs with h1 h2 <;> rfl

/-- Witness for C3: collapsing `0 → 1` on the lone tet `S3` removes every
tet, so the span shrinks by four, and the call returns `false` unchanged. -/
theorem c3_witness :
    collapse_new_tets S3 0 1 = some [] ∧
    ((vert_span ([] : List (List ℤ))).card : ℤ) ≠
      ((vert_span (collapse_old_tets S3 0)).card : ℤ) - 1 ∧
    collapse_edge O_accept S3 0 1 1 = some (false, S3) :=
  ⟨by decide, by decide,
    c3_collapse_link_condition_rejects O_accept S3 0 1 1 [] (by decide)
      (by decide)⟩

/-- **C4**: the collapse quality gate accepts exactly when the replacement
quality is at most the configured threshold or at most the pre-edit quality;
when the gate rejects (on a call that reaches it), `collapse_edge` returns
`false` with the state unchanged. -/
theorem c4_collapse_quality_gate (O : Oracle) (s : MeshState) (v1 v2 : ℤ)
    (sc : ℚ) (nt : List (List ℤ))
    (h1 : ¬((getI s.vert_attrs v1 default).mid_id ≠ -1 ∧
        (getI s.vert_attrs v2 default).mid_id = -1))
    (h2 : ¬(edge_adjacent_boundary_face s.tet_attrs s.vert_conn v1 v2 = [] ∧
        (getI s.vert_attrs v1 default).mid_id ≠ -1 ∧
        (getI s.vert_attrs v2 default).mid_id ≠ -1))
    (hnt : collapse_new_tets s v1 v2 = some nt)
    (hlink : ((vert_span nt).card : ℤ) =
      ((vert_span (collapse_old_tets s v1)).card : ℤ) - 1) :
    (collapse_quality_reject s.opt.collapse_quality_threshold
        (compute_quality O s.vert_attrs (collapse_old_tets s v1))
        (compute_quality O s.vert_attrs nt) = false ↔
      (compute_quality O s.vert_attrs nt ≤ s.opt.collapse_quality_threshold ∨
        compute_quality O s.vert_attrs nt ≤
          compute_quality O s.vert_attrs (collapse_old_tets s v1))) ∧
    (collapse_quality_reject s.opt.collapse_quality_threshold
        (compute_quality O s.vert_attrs (collapse_old_tets s v1))
        (compute_quality O s.vert_attrs nt) = true →
      collapse_edge O s v1 v2 sc = some (false, s)) := by
  constructor
  · constructor
    · intro h
      by_contra hc
      push_neg at hc
      obtain ⟨hA, hB⟩ := hc
      unfold collapse_quality_reject at h
      rw [decide_eq_true hA, decide_eq_true hB] at h
      simp at h
    · intro h
      unfold collapse_quality_reject
      rcases h with h | h
      · rw [decide_eq_false (not_lt.mpr h)]
        simp
      · rw [decide_eq_false (not_lt.mpr h)]
        simp
  · intro hrej
    unfold collapse_edge
    simp only [hnt]
    rw [if_neg h1, if_neg h2, if_neg (not_ne_iff.mpr hlink), if_pos hrej]

/-- Witness for C4: on `S4` with the `O_gate` quality metric the gate fires
(replacement quality `100` exceeds both the threshold `1` and the pre-edit
quality `0`) and the collapse is rejected unchanged. -/
theorem c4_witness :
    collapse_new_tets S4 0 1 = some [[1, 2, 3, 4]] ∧
    collapse_quality_reject S4.opt.collapse_quality_threshold
      (compute_quality O_gate S4.vert_attrs (collapse_old_tets S4 0))
      (compute_quality O_gate S4.vert_attrs [[1, 2, 3, 4]]) = true ∧
    collapse_edge O_gate S4 0 1 1 = some (false, S4) :=
  ⟨by decide, by decide,
    (c4_collapse_quality_gate O_gate S4 0 1 1 [[1, 2, 3, 4]] (by decide)
      (by decide) (by decide) (by decide)).2 (by decide)⟩

/-- Any `some` result of `sanity_gate` is an accepted state that passed the
whole-mesh audit. -/
theorem sanity_gate_some {O : Oracle} {x : MeshState} {b : Bool}
    {s' : MeshState} (h : sanity_gate O x = some (b, s')) :
    b = true ∧ s' = x ∧
      tetmesh_sanity O x.tet_attrs x.vert_attrs x.vert_conn x.pc = true := by
  unfold sanity_gate at h
  split at h
  case isTrue hs =>
    injection h with h'
    injection h' with h1 h2
    exact ⟨h1.symm, h2.symm, hs⟩
  case isFalse => exact Option.noConfusion h

/-- The boundary-count conjunct of a passing sanity audit. -/
theorem tetmesh_sanity_boundary_count {O : Oracle} {ta : List TetAttr}
    {va : List VertAttr} {vc : List (List ℕ)} {pc : PrismCage}
    (h : tetmesh_sanity O ta va vc pc = true) :
    boundary_face_count ta = pc_face_count pc := by
  unfold tetmesh_sanity at h
  simp only [Bool.and_eq_true, decide_eq_true_eq] at h
  exact h.2.2.2.1

theorem split_edge_true_sanity {O : Oracle} {s : MeshState} {v0 v1 : ℤ}
    {s' : MeshState} (h : split_edge O s v0 v1 = some (true, s')) :
    tetmesh_sanity O s'.tet_attrs s'.vert_attrs s'.vert_conn s'.pc = true := by
  simp only [split_edge] at h
  repeat' split at h
  any_goals simp at h
  all_goals obtain ⟨-, rfl, hsan⟩ := sanity_gate_some h
  all_goals exact hsan

theorem collapse_edge_true_sanity {O : Oracle} {s : MeshState} {v1 v2 : ℤ}
    {sc : ℚ} {s' : MeshState}
    (h : collapse_edge O s v1 v2 sc = some (true, s')) :
    tetmesh_sanity O s'.tet_attrs s'.vert_attrs s'.vert_conn s'.pc = true := by
  simp only [collapse_edge] at h
  repeat' split at h
  any_goals simp at h
  all_goals obtain ⟨-, rfl, hsan⟩ := sanity_gate_some h
  all_goals exact hsan

theorem swap_edge_true_sanity {O : Oracle} {s : MeshState} {v1 v2 : ℤ}
    {sc : ℚ} {s' : MeshState}
    (h : swap_edge O s v1 v2 sc = some (true, s')) :
    tetmesh_sanity O s'.tet_attrs s'.vert_attrs s'.vert_conn s'.pc = true := by
  simp only [swap_edge] at h
  repeat' split at h
  any_goals simp at h
  all_goals obtain ⟨-, rfl, hsan⟩ := sanity_gate_some h
  all_goals exact hsan

theorem swap_face_true_sanity {O : Oracle} {s : MeshState} {v0 v1 v2 : ℤ}
    {sc : ℚ} {s' : MeshState}
    (h : swap_face O s v0 v1 v2 sc = some (true, s')) :
    tetmesh_sanity O s'.tet_attrs s'.vert_attrs s'.vert_conn s'.pc = true := by
  simp only [swap_face] at h
  repeat' split at h
  any_goals simp at h
  all_goals obtain ⟨-, rfl, hsan⟩ := sanity_gate_some h
  all_goals exact hsan

/-- **C2**: whenever any of the four editors returns `true`, the number of
distinct faces of non-removed tets carrying a non-interior boundary tag
equals the number of non-empty shell layer slots in the resulting state
(every accepted edit ends in the sanity audit, whose failure aborts). -/
theorem c2_accepted_edit_boundary_count (O : Oracle) (c : EditorCall)
    (s s' : MeshState) (h : runEditor O c s = some (true, s')) :
    boundary_face_count s'.tet_attrs = pc_face_count s'.pc := by
  cases c with
  | splitE v0 v1 =>
    exact tetmesh_sanity_boundary_count (split_edge_true_sanity h)
  | collapseE v1 v2 sc =>
    exact tetmesh_sanity_boundary_count (collapse_edge_true_sanity h)
  | swapEdgeE v1 v2 sc =>
    exact tetmesh_sanity_boundary_count (swap_edge_true_sanity h)
  | swapFaceE v0 v1 v2 sc =>
    exact tetmesh_sanity_boundary_count (swap_face_true_sanity h)

/-- The state produced by the accepted `swap_face` call on `S2f`. -/
def S2f_after : MeshState := ((swap_face O_accept S2f 0 1 2 1).getD (false, S2f)).2

/-- Witness for C2: a concrete accepted editor call and the resulting
boundary-count equality. -/
theorem c2_witness :
    runEditor O_accept (.swapFaceE 0 1 2 1) S2f = some (true, S2f_after) ∧
    boundary_face_count S2f_after.tet_attrs = pc_face_count S2f_after.pc :=
  ⟨by decide,
    c2_accepted_edit_boundary_count O_accept (.swapFaceE 0 1 2 1) S2f S2f_after
      (by decide)⟩

/-- **C5**: `swap_edge` rejects unchanged unless exactly 3 tets share the
edge and no boundary face touches it, and every accepted swap has replacement
quality at most the replaced quality and replacement size at most the size
control. -/
theorem c5_swap_edge_spec (O : Oracle) (s : MeshState) (v1 v2 : ℤ) (sc : ℚ) :
    ((swap_affected s v1 v2).length ≠ 3 →
      swap_edge O s v1 v2 sc = some (false, s)) ∧
    (edge_adjacent_boundary_face s.tet_attrs s.vert_conn v1 v2 ≠ [] →
      swap_edge O s v1 v2 sc = some (false, s)) ∧
    (∀ s', swap_edge O s v1 v2 sc = some (true, s') →
      (swap_affected s v1 v2).length = 3 ∧
      edge_adjacent_boundary_face s.tet_attrs s.vert_conn v1 v2 = [] ∧
      compute_quality O s.vert_attrs (swap_new_tets s v1 v2) ≤
        compute_quality O s.vert_attrs
          ((swap_affected s v1 v2).map (fun t => (s.tet_attrs.getD t default).conn)) ∧
      max_tetra_sizes O s.vert_attrs (swap_new_tets s v1 v2) ≤ sc) := by
  refine ⟨?_, ?_, ?_⟩
  · intro hlen
    simp only [swap_edge]
    rw [if_pos hlen]
  · intro hbnd
    simp only [swap_edge]
    split
    · rfl
    · rfl
  · intro s' h
    simp only [swap_edge] at h
    split at h
    case isTrue => simp at h
    case isFalse hlen =>
      split at h
      case isTrue => simp at h
      case isFalse hbnd =>
        split at h
        case isTrue => simp at h
        case isFalse hsize =>
          split at h
          case isTrue => simp at h
          case isFalse hqual =>
            split at h
            case isTrue => simp at h
            case isFalse hval =>
              split at h
              case h_1 => exact Option.noConfusion h
              case h_2 ta2 vc2 heq =>
                exact ⟨not_ne_iff.mp hlen, not_ne_iff.mp hbnd,
                  not_lt.mp hqual, not_lt.mp hsize⟩

/-- The state produced by the accepted `swap_edge` call on `S5`. -/
def S5_after : MeshState := ((swap_edge O_accept S5 0 1 1).getD (false, S5)).2

/-- Witness for C5: the size-2 cluster `(0, 2)` of `S5` is rejected; the
tagged edge of `S5b` is rejected; the 3-tet ring `(0, 1)` of `S5` is accepted
and satisfies the quality and size bounds. -/
theorem c5_witness :
    swap_edge O_accept S5 0 2 1 = some (false, S5) ∧
    swap_edge O_accept S5b 0 1 1 = some (false, S5b) ∧
    ((swap_affected S5 0 1).length = 3 ∧
      edge_adjacent_boundary_face S5.tet_attrs S5.vert_conn 0 1 = [] ∧
      compute_quality O_accept S5.vert_attrs (swap_new_tets S5 0 1) ≤
        compute_quality O_accept S5.vert_attrs
          ((swap_affected S5 0 1).map (fun t => (S5.tet_attrs.getD t default).conn)) ∧
      max_tetra_sizes O_accept S5.vert_attrs (swap_new_tets S5 0 1) ≤ 1) :=
  ⟨(c5_swap_edge_spec O_accept S5 0 2 1).1 (by decide),
   (c5_swap_edge_spec O_accept S5b 0 1 1).2.1 (by decide),
   (c5_swap_edge_spec O_accept S5 0 1 1).2.2 S5_after (by decide)⟩

theorem assignTet_conn (va : List VertAttr) (fm : FaceMap) (t : List ℤ) :
    (assignTet va fm t).1.conn = t := rfl

/-- A successful `update_tetra_conn` appends exactly the proposed tets, in
order, after the (marked) pre-existing tet array. -/
theorem update_tetra_conn_appended {va : List VertAttr} {ta : List TetAttr}
    {vc : List (List ℕ)} {aff : List ℕ} {nts : List (List ℤ)} {mp : List ℤ}
    {mt : List (List ℤ)} {ta2 : List TetAttr} {vc2 : List (List ℕ)}
    (h : update_tetra_conn va ta vc aff nts mp mt = some (ta2, vc2)) :
    ta2.length = ta.length + nts.length ∧
    ∀ k, k < nts.length →
      (ta2.getD (ta.length + k) default).conn = nts.getD k [] := by
  simp only [update_tetra_conn] at h
  split at h
  case isFalse => exact Option.noConfusion h
  case isTrue =>
    split at h
    case isTrue => exact Option.noConfusion h
    case isFalse =>
      injection h with h'
      injection h' with h1 h2
      subst h1
      have hm := mark_removed_length aff ta
      constructor
      · rw [List.length_append, hm, List.length_map]
      · intro k hk
        rw [← hm, getD_append_right, getD_map_lt _ nts k default [] hk]
        exact assignTet_conn _ _ _

/-- Recover the full `some (true, _)` equation from the accepted flag alone
(the state component is extracted with `getD`, so no coordinate arithmetic
needs to be normalised by the kernel). -/
theorem option_eta_true {x : Option (Bool × MeshState)} {d : Bool × MeshState}
    (h : x.map Prod.fst = some true) : x = some (true, (x.getD d).2) := by
  cases x with
  | none => simp at h
  | some p =>
    cases p with
    | mk b st =>
      simp at h
      subst h
      rfl

/-- **C6**: an accepted `split_edge(v0, v1)` appends exactly one new vertex,
positioned at the midpoint of `v0` and `v1`, and appends, for the `k`-th tet
of the affected set, exactly two children: the original connectivity with
`v0` replaced by the new vertex index, and the one with `v1` replaced by
it. -/
theorem c6_split_edge_midpoint_children (O : Oracle) (s : MeshState)
    (v0 v1 : ℤ) (s' : MeshState) (h : split_edge O s v0 v1 = some (true, s')) :
    s'.vert_attrs.length = s.vert_attrs.length + 1 ∧
    (getI s'.vert_attrs (s.vert_attrs.length : ℤ) default).pos =
      midpoint3 (getI s.vert_attrs v0 default).pos
        (getI s.vert_attrs v1 default).pos ∧
    s'.tet_attrs.length = s.tet_attrs.length + 2 * (split_affected s v0 v1).length ∧
    ∀ k, k < (split_affected s v0 v1).length →
      (s'.tet_attrs.getD (s.tet_attrs.length + 2 * k) default).conn =
        replace (s.tet_attrs.getD ((split_affected s v0 v1).getD k 0) default).conn
          v0 (s.vert_attrs.length : ℤ) ∧
      (s'.tet_attrs.getD (s.tet_attrs.length + (2 * k + 1)) default).conn =
        replace (s.tet_attrs.getD ((split_affected s v0 v1).getD k 0) default).conn
          v1 (s.vert_attrs.length : ℤ) := by
  have hpairlen : (split_new_tets s v0 v1 (s.vert_attrs.length : ℤ)).length =
      2 * (split_affected s v0 v1).length := by
    simp only [split_new_tets]
    exact flatMap_pair_length _ _ _
  simp only [split_edge] at h
  repeat' split at h
  any_goals simp at h
  all_goals rename_i heq
  all_goals obtain ⟨-, rfl, -⟩ := sanity_gate_some h
  all_goals obtain ⟨hlen, hget⟩ := update_tetra_conn_appended heq
  all_goals refine ⟨by simp, by rw [getI_append_last], by rw [hlen, hpairlen], ?_⟩
  all_goals intro k hk
  all_goals {
    have hk2 : 2 * k < (split_new_tets s v0 v1 (s.vert_attrs.length : ℤ)).length := by
      rw [hpairlen]; omega
    have hk21 : 2 * k + 1 < (split_new_tets s v0 v1 (s.vert_attrs.length : ℤ)).length := by
      rw [hpairlen]; omega
    have e0 := hget (2 * k) hk2
    have e1 := hget (2 * k + 1) hk21
    have hp := flatMap_pair_getD
      (fun t => replace (s.tet_attrs.getD t default).conn v0 (s.vert_attrs.length : ℤ))
      (fun t => replace (s.tet_attrs.getD t default).conn v1 (s.vert_attrs.length : ℤ))
      (split_affected s v0 v1) k [] 0 hk
    simp only [split_new_tets] at e0 e1
    exact ⟨e0.trans hp.1, e1.trans hp.2⟩
  }

/-- The state produced by the accepted interior `split_edge` on the 3-tet
ring `S5`. -/
def S5_split : MeshState := ((split_edge O_accept S5 0 1).getD (false, S5)).2

/-- Witness for C6: the accepted split of edge `(0, 1)` of `S5`. -/
theorem c6_witness :
    split_edge O_accept S5 0 1 = some (true, S5_split) ∧
    S5_split.vert_attrs.length = S5.vert_attrs.length + 1 := by
  have he : split_edge O_accept S5 0 1 = some (true, S5_split) :=
    option_eta_true (by decide)
  exact ⟨he, (c6_split_edge_midpoint_children O_accept S5 0 1 S5_split he).1⟩

theorem getD_oob {α : Type} (l : List α) (n : ℕ) (d : α) (h : l.length ≤ n) :
    l.getD n d = d := by
  induction l generalizing n with
  | nil => simp
  | cons x xs ih =>
    cases n with
    | zero => simp at h
    | succ m => simpa using ih m (by simpa using h)

theorem getI_oob {α : Type} (l : List α) (i : ℤ) (d : α)
    (h : ¬(0 ≤ i ∧ i.toNat < l.length)) : getI l i d = d := by
  unfold getI
  split
  · rename_i h0
    exact getD_oob _ _ _ (by omega)
  · rfl

/-- Writing back the value read from the original list restores the original
read, whatever the intermediate list holds (lengths being equal). -/
theorem getI_setI_restore {α : Type} (l l' : List α) (i : ℤ) (d : α)
    (hlen : l'.length = l.length) :
    getI (setI l' i (getI l i d)) i d = getI l i d := by
  rw [getI_setI_self]
  split
  · rfl
  · rename_i h
    have h2 : ¬(0 ≤ i ∧ i.toNat < l.length) := by rwa [hlen] at h
    rw [getI_oob l' i d h, getI_oob l i d h2]

/-- The `rollback` write of the saved position restores the original read of
`v0`'s position. -/
theorem pos_restore (sva cva : List VertAttr) (v0 : ℤ)
    (hlen : cva.length = sva.length) :
    (getI (setI cva v0
      { getI cva v0 default with pos := (getI sva v0 default).pos })
      v0 default).pos = (getI sva v0 default).pos := by
  rw [getI_setI_self]
  split
  · rfl
  · rename_i h
    have h2 : ¬(0 ≤ v0 ∧ v0.toNat < sva.length) := by rwa [hlen] at h
    rw [getI_oob cva v0 default h, getI_oob sva v0 default h2]

/-- What `smooth_vertex`'s intermediate states may differ in from the entry
state: only `v0`'s position and the pillar slot, so tets and adjacency are
untouched and all array lengths are preserved. -/
def smooth_shape (s st : MeshState) : Prop :=
  st.tet_attrs = s.tet_attrs ∧ st.vert_conn = s.vert_conn ∧
  st.vert_attrs.length = s.vert_attrs.length ∧
  st.pc.base.length = s.pc.base.length ∧
  st.pc.mid.length = s.pc.mid.length ∧
  st.pc.top.length = s.pc.top.length

theorem smooth_shape_trans {s s1 st : MeshState} (h1 : smooth_shape s s1)
    (h2 : smooth_shape s1 st) : smooth_shape s st := by
  obtain ⟨a1, b1, c1, d1, e1, f1⟩ := h1
  obtain ⟨a2, b2, c2, d2, e2, f2⟩ := h2
  exact ⟨a2.trans a1, b2.trans b1, c2.trans c1, d2.trans d1, e2.trans e1,
    f2.trans f1⟩

theorem smooth_snap_shape (O : Oracle) (s1 : MeshState) (np : List ℤ)
    (v0 pv0 : ℤ) (st : MeshState)
    (h : smooth_snap_state O s1 np v0 pv0 = .error st ∨
      smooth_snap_state O s1 np v0 pv0 = .ok st) :
    smooth_shape s1 st := by
  unfold smooth_snap_state at h
  rcases h with h | h <;> split at h <;>
    first
      | exact Except.noConfusion h
      | (injection h with h'
         subst h'
         exact ⟨rfl, rfl, by simp [length_setI], rfl, by simp [length_setI], rfl⟩)

theorem smooth_stage1_shape (O : Oracle) (s : MeshState) (ty : SmoothType)
    (v0 : ℤ) (st : MeshState)
    (h : smooth_stage1 O s ty v0 = .error st ∨
      smooth_stage1 O s ty v0 = .ok st) :
    smooth_shape s st := by
  cases ty
  case kInteriorNewton =>
    simp only [smooth_stage1] at h
    rcases h with h | h
    · exact Except.noConfusion h
    · injection h with h'
      subst h'
      exact ⟨rfl, rfl, by simp [length_setI], rfl, rfl, rfl⟩
  case kSurfaceSnap =>
    simp only [smooth_stage1] at h
    exact smooth_snap_shape _ _ _ _ _ _ h
  case kShellPan =>
    simp only [smooth_stage1] at h
    have hpan : ∀ d : Vec3, smooth_shape s
        { s with pc :=
          { s.pc with
              base := setI s.pc.base ((getI s.vert_attrs v0 default).mid_id)
                ((getI s.pc.base ((getI s.vert_attrs v0 default).mid_id) Vec3.zero).add d)
              mid := setI s.pc.mid ((getI s.vert_attrs v0 default).mid_id)
                ((getI s.pc.mid ((getI s.vert_attrs v0 default).mid_id) Vec3.zero).add d)
              top := setI s.pc.top ((getI s.vert_attrs v0 default).mid_id)
                ((getI s.pc.top ((getI s.vert_attrs v0 default).mid_id) Vec3.zero).add d) } } :=
      fun d => ⟨rfl, rfl, rfl, by simp [length_setI], by simp [length_setI],
        by simp [length_setI]⟩
    rcases h with h | h <;> split at h
    · injection h with h'
      subst h'
      exact ⟨rfl, rfl, rfl, rfl, rfl, rfl⟩
    · exact smooth_shape_trans (hpan _) (smooth_snap_shape _ _ _ _ _ _ (Or.inl h))
    · exact Except.noConfusion h
    · exact smooth_shape_trans (hpan _) (smooth_snap_shape _ _ _ _ _ _ (Or.inr h))
  case kShellZoom =>
    simp only [smooth_stage1] at h
    rcases h with h | h <;> split at h <;>
      first
        | exact Except.noConfusion h
        | (injection h with h'
           subst h'
           exact ⟨rfl, rfl, rfl, by simp [length_setI], rfl, by simp [length_setI]⟩)
  case kShellRotate =>
    simp only [smooth_stage1] at h
    rcases h with h | h <;> split at h <;>
      first
        | exact Except.noConfusion h
        | (injection h with h'
           subst h'
           exact ⟨rfl, rfl, rfl, by simp [length_setI], rfl, by simp [length_setI]⟩)

theorem smooth_checks_error {O : Oracle} {s : MeshState} {v0 : ℤ} {sc : ℚ}
    {s2 st : MeshState} (h : smooth_checks O s v0 sc s2 = .error st) :
    st = s2 := by
  simp only [smooth_checks] at h
  repeat' split at h
  all_goals
    first
      | exact Except.noConfusion h
      | (injection h with h'; exact h'.symm)

theorem smooth_checks_ok {O : Oracle} {s : MeshState} {v0 : ℤ} {sc : ℚ}
    {s2 s3 : MeshState} (h : smooth_checks O s v0 sc s2 = .ok s3) :
    s3.tet_attrs = s2.tet_attrs ∧ s3.vert_conn = s2.vert_conn := by
  simp only [smooth_checks] at h
  repeat' split at h
  all_goals
    first
      | exact Except.noConfusion h
      | (injection h with h'; subst h'; exact ⟨rfl, rfl⟩)

/-- The conclusions of C10 for a rollback from any intermediate state `st`
reachable from `s`. -/
theorem smooth_rollback_restores (s : MeshState) (v0 : ℤ) (st : MeshState)
    (hsh : smooth_shape s st) :
    ((smooth_rollback s v0 st).2.tet_attrs = s.tet_attrs ∧
      (smooth_rollback s v0 st).2.vert_conn = s.vert_conn) ∧
    ((smooth_rollback s v0 st).1 = false →
      (getI (smooth_rollback s v0 st).2.vert_attrs v0 default).pos =
        (getI s.vert_attrs v0 default).pos ∧
      ((getI s.vert_attrs v0 default).mid_id ≠ -1 →
        getI (smooth_rollback s v0 st).2.pc.base
            (getI s.vert_attrs v0 default).mid_id Vec3.zero =
          getI s.pc.base (getI s.vert_attrs v0 default).mid_id Vec3.zero ∧
        getI (smooth_rollback s v0 st).2.pc.mid
            (getI s.vert_attrs v0 default).mid_id Vec3.zero =
          getI s.pc.mid (getI s.vert_attrs v0 default).mid_id Vec3.zero ∧
        getI (smooth_rollback s v0 st).2.pc.top
            (getI s.vert_attrs v0 default).mid_id Vec3.zero =
          getI s.pc.top (getI s.vert_attrs v0 default).mid_id Vec3.zero)) := by
  obtain ⟨hta, hvc, hval, hbl, hml, htl⟩ := hsh
  simp only [smooth_rollback]
  refine ⟨⟨hta, hvc⟩, fun _ => ⟨pos_restore s.vert_attrs st.vert_attrs v0 hval, ?_⟩⟩
  intro hpv
  rw [if_pos hpv]
  exact ⟨getI_setI_restore _ _ _ _ hbl, getI_setI_restore _ _ _ _ hml,
    getI_setI_restore _ _ _ _ htl⟩

/-- **C10**: `smooth_vertex` never modifies tet connectivity or the
vertex→tet adjacency; and when it returns `false`, the smoothed vertex's
position and (for a boundary vertex) its base/mid/top pillar entries equal
their pre-call values. -/
theorem c10_smooth_vertex_rollback (O : Oracle) (s : MeshState)
    (ty : SmoothType) (v0 : ℤ) (sc : ℚ) :
    ((smooth_vertex O s ty v0 sc).2.tet_attrs = s.tet_attrs ∧
      (smooth_vertex O s ty v0 sc).2.vert_conn = s.vert_conn) ∧
    ((smooth_vertex O s ty v0 sc).1 = false →
      (getI (smooth_vertex O s ty v0 sc).2.vert_attrs v0 default).pos =
        (getI s.vert_attrs v0 default).pos ∧
      ((getI s.vert_attrs v0 default).mid_id ≠ -1 →
        getI (smooth_vertex O s ty v0 sc).2.pc.base
            (getI s.vert_attrs v0 default).mid_id Vec3.zero =
          getI s.pc.base (getI s.vert_attrs v0 default).mid_id Vec3.zero ∧
        getI (smooth_vertex O s ty v0 sc).2.pc.mid
            (getI s.vert_attrs v0 default).mid_id Vec3.zero =
          getI s.pc.mid (getI s.vert_attrs v0 default).mid_id Vec3.zero ∧
        getI (smooth_vertex O s ty v0 sc).2.pc.top
            (getI s.vert_attrs v0 default).mid_id Vec3.zero =
          getI s.pc.top (getI s.vert_attrs v0 default).mid_id Vec3.zero)) := by
  unfold smooth_vertex
  cases h1 : smooth_stage1 O s ty v0 with
  | error st =>
    have hsh := smooth_stage1_shape O s ty v0 st (Or.inl h1)
    simp only [Except.bind]
    exact smooth_rollback_restores s v0 st hsh
  | ok s2 =>
    have hsh2 := smooth_stage1_shape O s ty v0 s2 (Or.inr h1)
    simp only [Except.bind]
    cases h2 : smooth_checks O s v0 sc s2 with
    | error st =>
      have hst : st = s2 := smooth_checks_error h2
      subst hst
      exact smooth_rollback_restores s v0 st hsh2
    | ok s3 =>
      obtain ⟨hta, hvc⟩ := smooth_checks_ok h2
      exact ⟨⟨hta.trans hsh2.1, hvc.trans hsh2.2.1⟩, fun hfalse => by simp at hfalse⟩

/-- A boundary vertex `0` (shell-id 0) with one incident tet carrying a
boundary tag: the surface-snap smoothing fails (the intersection oracle
returns none) and rolls back. -/
def S10 : MeshState :=
  { pc := { base := [pt 0 0 (-1)], mid := [pt 0 0 0], top := [pt 0 0 1], F := [[0, 1, 2]], track_ref := [[7]] }
    opt := {}
    vert_attrs := [{ pos := pt 0 0 0, mid_id := 0 }, { pos := pt 1 0 0 },
      { pos := pt 0 1 0 }, { pos := pt 0 0 1 }]
    tet_attrs := [{ conn := [0, 1, 2, 3], prism_id := [-1, 0, -1, -1] }]
    vert_conn := [[0], [0], [0], [0]] }

/-- Witness for C10: the failed snap-smoothing of the boundary vertex `0` of
`S10` leaves its position and all three pillar entries unchanged. -/
theorem c10_witness :
    (smooth_vertex O_accept S10 .kSurfaceSnap 0 1).1 = false ∧
    (getI S10.vert_attrs 0 default).mid_id ≠ -1 ∧
    (getI (smooth_vertex O_accept S10 .kSurfaceSnap 0 1).2.vert_attrs 0
        default).pos = (getI S10.vert_attrs 0 default).pos ∧
    getI (smooth_vertex O_accept S10 .kSurfaceSnap 0 1).2.pc.mid
        (getI S10.vert_attrs 0 default).mid_id Vec3.zero =
      getI S10.pc.mid (getI S10.vert_attrs 0 default).mid_id Vec3.zero := by
  have hf : (smooth_vertex O_accept S10 .kSurfaceSnap 0 1).1 = false := by decide
  have h := (c10_smooth_vertex_rollback O_accept S10 .kSurfaceSnap 0 1).2 hf
  exact ⟨hf, by decide, h.1, (h.2 (by decide)).2.1⟩

theorem set_getD_self {α : Type} (l : List α) (n : ℕ) (d : α) :
    l.set n (l.getD n d) = l := by
  induction l generalizing n with
  | nil => rfl
  | cons x xs ih =>
    cases n with
    | zero => rfl
    | succ m =>
      simp only [List.set_cons_succ, List.cons.injEq, true_and]
      exact ih m

/-- Re-writing the tentative rounding and then the revert restores the
original vertex array exactly. -/
theorem round_restore (l : List AVert) (i : ℕ)
    (hr : (l.getD i default).rounded = false) :
    (l.set i { l.getD i default with
        m_posr := (l.getD i default).m_posf, rounded := true }).set i
      { (l.set i { l.getD i default with
          m_posr := (l.getD i default).m_posf, rounded := true }).getD i default
          with rounded := false, m_posr := (l.getD i default).m_posr } = l := by
  by_cases hlen : i < l.length
  · rw [getD_set_self _ _ _ _ hlen, List.set_set]
    have hkey : ({ { l.getD i default with
        m_posr := (l.getD i default).m_posf, rounded := true } with
        rounded := false, m_posr := (l.getD i default).m_posr } : AVert) =
        l.getD i default := by
      cases hc : l.getD i default with
      | mk pf pr rd =>
        rw [hc] at hr
        simp only at hr
        subst hr
        rfl
    rw [hkey, set_getD_self]
  · have hle : l.length ≤ i := Nat.le_of_not_lt hlen
    rw [List.set_eq_of_length_le (by simpa using hle),
      List.set_eq_of_length_le hle]

/-- **C8**: `AdaMesh::round(i)` returns `true` unchanged for an invalid or
already-rounded vertex; otherwise it tentatively rounds, and if any incident
tet is inverted it restores the exact position, clears the flag and returns
`false` with the state bit-identical to the input; if none is inverted it
leaves the vertex rounded (rational position overwritten by the float one)
and returns `true`. -/
theorem c8_adamesh_round_spec (O : AdaOracle) (s : AdaState) (i : ℕ) :
    (O.vertex_valid i = false → AdaMesh_round O s i = (true, s)) ∧
    (O.vertex_valid i = true → (s.vertex_attrs.getD i default).rounded = true →
      AdaMesh_round O s i = (true, s)) ∧
    (O.vertex_valid i = true → (s.vertex_attrs.getD i default).rounded = false →
      ((O.one_ring i).any fun t => AdaMesh_is_invert O t) = true →
      AdaMesh_round O s i = (false, s)) ∧
    (O.vertex_valid i = true → (s.vertex_attrs.getD i default).rounded = false →
      ((O.one_ring i).any fun t => AdaMesh_is_invert O t) = false →
      AdaMesh_round O s i = (true, ⟨s.vertex_attrs.set i
        { s.vertex_attrs.getD i default with
            m_posr := (s.vertex_attrs.getD i default).m_posf,
            rounded := true }⟩)) := by
  refine ⟨?_, ?_, ?_, ?_⟩
  · intro hv
    simp only [AdaMesh_round]
    rw [if_pos (by simp [hv])]
  · intro hv hr
    simp only [AdaMesh_round]
    rw [if_neg (by simp [hv]), if_pos hr]
  · intro hv hr hinv
    simp only [AdaMesh_round]
    rw [if_neg (by simp [hv]), if_neg (by rw [hr]; simp), if_pos hinv]
    exact congrArg (Prod.mk false) (congrArg AdaState.mk (round_restore _ _ hr))
  · intro hv hr hinv
    simp only [AdaMesh_round]
    rw [if_neg (by simp [hv]), if_neg (by rw [hr]; simp), if_neg (by simp [hinv])]

/-- An oracle whose tet tuples are all valid: the committed `is_invert` stub
then reports every incident tet as inverted. -/
def AO8_invert : AdaOracle :=
  { vertex_valid := fun _ => true
    one_ring := fun _ => [0]
    tet_tuple_valid := fun _ => true
    oriented_tet_vids := fun _ => [0, 1, 2, 3]
    amips_rational := fun _ => .fin 30
    amips_stable := fun _ => .fin 30
    amips_uninit := fun _ => .fin 30 }

def AO8_ok : AdaOracle := { AO8_invert with tet_tuple_valid := fun _ => false }

def AS8 : AdaState := ⟨[{ m_posf := pt 1 2 3, m_posr := pt 4 5 6, rounded := false }]⟩

/-- Witness for C8: the reverting branch (an inverted incident tet) and the
committing branch on the concrete vertex of `AS8`. -/
theorem c8_witness :
    (AO8_invert.vertex_valid 0 = true ∧
      (AS8.vertex_attrs.getD 0 default).rounded = false ∧
      ((AO8_invert.one_ring 0).any fun t => AdaMesh_is_invert AO8_invert t) = true ∧
      AdaMesh_round AO8_invert AS8 0 = (false, AS8)) ∧
    (((AO8_ok.one_ring 0).any fun t => AdaMesh_is_invert AO8_ok t) = false ∧
      AdaMesh_round AO8_ok AS8 0 =
        (true, ⟨AS8.vertex_attrs.set 0
          { AS8.vertex_attrs.getD 0 default with
              m_posr := (AS8.vertex_attrs.getD 0 default).m_posf,
              rounded := true }⟩)) :=
  ⟨⟨rfl, rfl, rfl, (c8_adamesh_round_spec AO8_invert AS8 0).2.2.1 rfl rfl rfl⟩,
   ⟨rfl, (c8_adamesh_round_spec AO8_ok AS8 0).2.2.2 rfl rfl rfl⟩⟩

/-- The C9 failing input: an unrounded vertex whose rational AMIPS energy
evaluates to exactly `-1`, the code's in-band "not yet computed" marker. -/
def AO9 : AdaOracle :=
  { vertex_valid := fun _ => true
    one_ring := fun _ => []
    tet_tuple_valid := fun _ => true
    oriented_tet_vids := fun _ => [0, 1, 2, 3]
    amips_rational := fun _ => .fin (-1)
    amips_stable := fun _ => .fin 40
    amips_uninit := fun _ => .fin 50 }

def AS9 : AdaState :=
  ⟨[{ rounded := false }, { rounded := true }, { rounded := true },
    { rounded := true }]⟩

/-- **C9** (code-bug evaluation): vertex 0 of the tet is unrounded, so the
claim prescribes the quality to be the (clamped) rational AMIPS energy of
the four exact positions — here the clamp of `-1`, i.e. the `1e50` sentinel.
Instead, because `-1.` doubles as the function's internal "not computed"
marker, `AdaMesh::quality` falls through to `AMIPS_energy_stable_p3` on a
partially-initialized buffer (undefined behaviour, modelled by the abstract
`amips_uninit`), and returns the clamp of that unrelated value. -/
theorem c9_quality_sentinel_fallthrough :
    ((AO9.oriented_tet_vids 0).any
      fun v => !(AS9.vertex_attrs.getD v default).rounded) = true ∧
    AO9.amips_rational ((AO9.oriented_tet_vids 0).map
      (fun v => (AS9.vertex_attrs.getD v default).m_posr)) = .fin (-1) ∧
    AdaMesh_quality AO9 AS9 0 =
      dbl_clamp (AO9.amips_uninit (AO9.oriented_tet_vids 0)) ∧
    dbl_clamp (AO9.amips_rational ((AO9.oriented_tet_vids 0).map
      (fun v => (AS9.vertex_attrs.getD v default).m_posr))) = dbl_sentinel ∧
    dbl_clamp (AO9.amips_uninit (AO9.oriented_tet_vids 0)) ≠ dbl_sentinel := by
  refine ⟨rfl, rfl, rfl, ?_, ?_⟩
  · show dbl_clamp (.fin (-1)) = dbl_sentinel
    have hc : (dbl_isinf (Dbl.fin (-1)) || dbl_isnan (Dbl.fin (-1)) ||
        dbl_lt (Dbl.fin (-1)) (.fin min_valid_energy)) = true := by
      simp [dbl_isinf, dbl_isnan, dbl_lt, min_valid_energy]
      norm_num
    unfold dbl_clamp
    rw [if_pos hc]
  · show dbl_clamp (.fin 50) ≠ dbl_sentinel
    have hc : (dbl_isinf (Dbl.fin 50) || dbl_isnan (Dbl.fin 50) ||
        dbl_lt (Dbl.fin 50) (.fin min_valid_energy)) = false := by
      simp [dbl_isinf, dbl_isnan, dbl_lt, min_valid_energy]
      norm_num
    unfold dbl_clamp
    rw [if_neg (by simp [hc])]
    simp [dbl_sentinel]
    norm_num

end Batm
